import Mathlib

/-!
Verification of the KY-035 analog Hall sensor sketch (batch sampler with
scrolling graph) and the spec's rolling-averager contract.

The state machine, averaging loop, graph FIFO and graph scaling are embedded
from `src/src/main.cpp`.  C++ `int` values are modelled as `ℤ` (with `Int.tdiv`
for the truncating division of C++), `unsigned long` millisecond timestamps as
`ℕ` reduced modulo `2^32`, and the fixed-size C arrays `readings`/`graphData`
as total functions `ℤ → ℤ` so that in-bounds access is a provable property
rather than a modelling assumption.
-/

namespace KY035

/-- The state machine modes from the `State` enum in `main.cpp`. -/
inductive State where
  | SENSOR_READ
  | WAIT
  | AVERAGE
deriving DecidableEq, Repr

/-- `READ_INTERVAL = 50` milliseconds between individual readings. -/
def READ_INTERVAL : ℕ := 50

/-- `NUM_READINGS = 10`, the number of readings to average. -/
def NUM_READINGS : ℤ := 10

/-- `GRAPH_HEIGHT = 55`, the height of the plot area in pixels. -/
def GRAPH_HEIGHT : ℤ := 55

/-- The mutable global state of the sketch: current mode, timestamp of the
last reading, the two arrays, the write index and the averaged values.
`renderCount` is a ghost counter of `displayStatus` invocations (the display
renderer), used to state when the screen is redrawn. -/
structure Mach where
  currentState : State
  lastReadTime : ℕ
  readings : ℤ → ℤ
  graphData : ℤ → ℤ
  readIndex : ℤ
  averagedValue : ℤ
  previousAveragedValue : ℤ
  renderCount : ℕ

/-- Startup state: globals as initialised in `main.cpp` (C++ zero-initialises
the global arrays; `previousAveragedValue = -1`). -/
def initMach : Mach where
  currentState := State.SENSOR_READ
  lastReadTime := 0
  readings := fun _ => 0
  graphData := fun _ => 0
  readIndex := 0
  averagedValue := 0
  previousAveragedValue := -1
  renderCount := 0

/-- The summing loop of the `AVERAGE` state:
`for (i = 0; i < NUM_READINGS; i++) sum += readings[i];`. -/
def sumReadings (r : ℤ → ℤ) : ℤ :=
  (List.range 10).foldl (fun s i => s + r (i : ℤ)) 0

/-- `averagedValue = sum / NUM_READINGS`: C++ `int` division truncates toward
zero, hence `Int.tdiv`. -/
def avgOf (r : ℤ → ℤ) : ℤ :=
  Int.tdiv (sumReadings r) NUM_READINGS

/-- The shifting loop of the `AVERAGE` state:
`for (i = 0; i < NUM_READINGS - 1; i++) graphData[i] = graphData[i + 1];`.
The fold updates the array sequentially, exactly as the ascending loop does. -/
def shiftGraph (g : ℤ → ℤ) : ℤ → ℤ :=
  (List.range 9).foldl (fun a i => Function.update a (i : ℤ) (a ((i : ℤ) + 1))) g

/-- `graphData[NUM_READINGS - 1] = averagedValue;` after the shift loop. -/
def pushGraph (g : ℤ → ℤ) (v : ℤ) : ℤ → ℤ :=
  Function.update (shiftGraph g) 9 v

/-- The contents of a 10-entry array, in index order. -/
def histList (g : ℤ → ℤ) : List ℤ :=
  (List.range 10).map fun i => g (i : ℤ)

/-- `currentTime - lastReadTime` in 32-bit unsigned arithmetic
(`unsigned long` on this board is 32 bits and `millis()` wraps). -/
def elapsed (now last : ℕ) : ℕ :=
  (now % 4294967296 + (4294967296 - last % 4294967296)) % 4294967296

/-- One invocation of `loop()`: the `switch (currentState)` state machine with
the current `millis()` value and the `analogRead` result as inputs. -/
def step (s : Mach) (currentTime : ℕ) (sensorValue : ℤ) : Mach :=
  match s.currentState with
  | State.SENSOR_READ =>
      { s with
        readings := Function.update s.readings s.readIndex sensorValue
        readIndex := s.readIndex + 1
        lastReadTime := currentTime % 4294967296
        currentState :=
          if s.readIndex + 1 ≥ NUM_READINGS then State.AVERAGE else State.WAIT }
  | State.WAIT =>
      if elapsed currentTime s.lastReadTime ≥ READ_INTERVAL then
        { s with currentState := State.SENSOR_READ }
      else s
  | State.AVERAGE =>
      let a := avgOf s.readings
      if a ≠ s.previousAveragedValue then
        { s with
          averagedValue := a
          graphData := pushGraph s.graphData a
          renderCount := s.renderCount + 1
          previousAveragedValue := a
          readIndex := 0
          currentState := State.SENSOR_READ }
      else
        { s with
          averagedValue := a
          readIndex := 0
          currentState := State.SENSOR_READ }

/-- A canonical run from startup: `loop()` is invoked at times `0, 50, 100, …`
(so the `WAIT` guard passes exactly one invocation after each reading) with an
arbitrary stream `v` of sensor values. -/
def run (v : ℕ → ℤ) : ℕ → Mach
  | 0 => initMach
  | n + 1 => step (run v n) (50 * n) (v n)

/-- States reachable from startup under arbitrary clock and sensor inputs. -/
inductive Reachable : Mach → Prop where
  | init : Reachable initMach
  | next : ∀ s ct sv, Reachable s → Reachable (step s ct sv)

/-- The contents of the `readings` array after the first `k` samples of the
canonical run (sample `k` is taken at loop invocation `2 * k`). -/
def window (v : ℕ → ℤ) : ℕ → ℤ → ℤ
  | 0 => fun _ => 0
  | k + 1 => Function.update (window v k) (k : ℤ) (v (2 * k))

/-- One iteration of the scale-bounds loop in `drawGraph`:
`if (graphData[i] < minValue) minValue = graphData[i];`
`if (graphData[i] > maxValue) maxValue = graphData[i];`. -/
def boundsStep (g : ℤ → ℤ) (mv : ℤ × ℤ) (i : ℕ) : ℤ × ℤ :=
  (if g (i : ℤ) < mv.1 then g (i : ℤ) else mv.1,
    if g (i : ℤ) > mv.2 then g (i : ℤ) else mv.2)

/-- The `(minValue, maxValue)` pair `drawGraph` uses for scaling: the loop
starts from `minValue = 30, maxValue = 4095` and scans the 10 entries. -/
def graphBounds (g : ℤ → ℤ) : ℤ × ℤ :=
  (List.range 10).foldl (boundsStep g) (30, 4095)

/-- Arduino integer `map(x, in_min, in_max, out_min, out_max)`:
`(x - in_min) * (out_max - out_min) / (in_max - in_min) + out_min` with C++
truncating division. -/
def arduinoMap (x inMin inMax outMin outMax : ℤ) : ℤ :=
  Int.tdiv ((x - inMin) * (outMax - outMin)) (inMax - inMin) + outMin

/-- Vertical plot offset of a value in `drawGraph`:
`map(graphData[i], minValue, maxValue, 0, GRAPH_HEIGHT)`. -/
def plotY (g : ℤ → ℤ) (x : ℤ) : ℤ :=
  arduinoMap x (graphBounds g).1 (graphBounds g).2 0 GRAPH_HEIGHT

/-- The least of the 10 history entries (for stating the scaling claim). -/
def histMin (g : ℤ → ℤ) : ℤ :=
  ((List.range 10).map fun i => g (i : ℤ)).foldl min (g 0)

/-- The greatest of the 10 history entries (for stating the scaling claim). -/
def histMax (g : ℤ → ℤ) : ℤ :=
  ((List.range 10).map fun i => g (i : ℤ)).foldl max (g 0)

/-- Modelled from the spec: the rolling-averager (meter) sketch is not under
`src/`, so its noise-floor clamp is taken from §4.2 step 3 of the spec: "if
mean ≤ 30 (the sensor's observed no-field floor), force result to 0". -/
def clampNoise (m : ℤ) : ℤ :=
  if m ≤ 30 then 0 else m

/-- Modelled from the spec: the rolling-averager (meter) sketch is not under
`src/`, so its linear unit mapping is taken from §4.2 step 4 of the spec:
`output = outMin + (outMax - outMin) * (input - inMin) / (inMax - inMin)`,
instantiated at domain [0, 4095] and range [0.0, 3.3] volts, in exact
rational arithmetic. -/
def mapVolts (x : ℚ) : ℚ :=
  0 + (33 / 10 - 0) * (x - 0) / (4095 - 0)

end KY035

namespace KY035

/-- Claim C1: for a window of 10 readings each in [0, 4095], the averaged
value computed in the `AVERAGE` state is the floor of `sum / 10` (the C++
truncating division agrees with floor division here), and lies in [0, 4095]. -/
theorem averagedValue_floor_and_bounds :
    ∀ r : ℤ → ℤ, (∀ i : ℤ, 0 ≤ i → i < 10 → 0 ≤ r i ∧ r i ≤ 4095) →
      avgOf r = Int.fdiv (sumReadings r) 10 ∧ 0 ≤ avgOf r ∧ avgOf r ≤ 4095 := by
  intro r h
  have h0 := h 0 (by norm_num) (by norm_num)
  have h1 := h 1 (by norm_num) (by norm_num)
  have h2 := h 2 (by norm_num) (by norm_num)
  have h3 := h 3 (by norm_num) (by norm_num)
  have h4 := h 4 (by norm_num) (by norm_num)
  have h5 := h 5 (by norm_num) (by norm_num)
  have h6 := h 6 (by norm_num) (by norm_num)
  have h7 := h 7 (by norm_num) (by norm_num)
  have h8 := h 8 (by norm_num) (by norm_num)
  have h9 := h 9 (by norm_num) (by norm_num)
  have hsum : sumReadings r =
      0 + r 0 + r 1 + r 2 + r 3 + r 4 + r 5 + r 6 + r 7 + r 8 + r 9 := rfl
  have hS0 : 0 ≤ sumReadings r := by rw [hsum]; omega
  have hS1 : sumReadings r ≤ 40950 := by rw [hsum]; omega
  have havg : avgOf r = sumReadings r / 10 := by
    show Int.tdiv (sumReadings r) NUM_READINGS = _
    rw [show NUM_READINGS = 10 from rfl, Int.tdiv_eq_ediv hS0 (by norm_num)]
  refine ⟨?_, ?_, ?_⟩
  · rw [havg, Int.fdiv_eq_ediv _ (by norm_num)]
  · rw [havg]; omega
  · rw [havg]; omega

/-- Witness for C1 at the constant window of 100s (the spec's scenario:
average of ten 100s is 100). -/
theorem averagedValue_floor_and_bounds_witness :
    avgOf (fun _ => 100) = Int.fdiv (sumReadings (fun _ => 100)) 10 ∧
      0 ≤ avgOf (fun _ => 100) ∧ avgOf (fun _ => 100) ≤ 4095 :=
  averagedValue_floor_and_bounds (fun _ => 100) (by intro i h1 h2; norm_num)

/-- Claim C2: pushing a value onto the graph history shifts the 10 entries
left by one and writes the new value at the end — `[v1..v10]` becomes
`[v2..v10, v11]`, exactly the oldest entry is evicted, and the history still
holds exactly 10 entries. -/
theorem pushGraph_fifo :
    ∀ (g : ℤ → ℤ) (v : ℤ),
      histList (pushGraph g v) = (histList g).drop 1 ++ [v] ∧
        (histList (pushGraph g v)).length = 10 :=
  fun g v => ⟨rfl, rfl⟩

/-- In the `AVERAGE` state, both branches of the change-detection `if` reset
`readIndex` to 0 and transition back to `SENSOR_READ`. -/
lemma step_average_resets (s : Mach) (ct : ℕ) (sv : ℤ)
    (h : s.currentState = State.AVERAGE) :
    (step s ct sv).readIndex = 0 ∧
      (step s ct sv).currentState = State.SENSOR_READ := by
  unfold step
  rw [h]
  by_cases hc : avgOf s.readings ≠ s.previousAveragedValue
  · simp [hc]
  · simp [hc]

/-- Shape of a `SENSOR_READ` step that has not yet filled the window. -/
lemma step_read_wait (s : Mach) (ct : ℕ) (sv : ℤ)
    (h : s.currentState = State.SENSOR_READ) (hi : s.readIndex + 1 < 10) :
    step s ct sv =
      { s with
        readings := Function.update s.readings s.readIndex sv
        readIndex := s.readIndex + 1
        lastReadTime := ct % 4294967296
        currentState := State.WAIT } := by
  unfold step
  rw [h]
  simp [NUM_READINGS, show ¬s.readIndex + 1 ≥ 10 from by omega]

/-- Shape of the `SENSOR_READ` step that fills the window. -/
lemma step_read_avg (s : Mach) (ct : ℕ) (sv : ℤ)
    (h : s.currentState = State.SENSOR_READ) (hi : 10 ≤ s.readIndex + 1) :
    step s ct sv =
      { s with
        readings := Function.update s.readings s.readIndex sv
        readIndex := s.readIndex + 1
        lastReadTime := ct % 4294967296
        currentState := State.AVERAGE } := by
  unfold step
  rw [h]
  simp [NUM_READINGS, show s.readIndex + 1 ≥ 10 from hi]

/-- Shape of a `WAIT` step whose interval guard passes. -/
lemma step_wait_pass (s : Mach) (ct : ℕ) (sv : ℤ)
    (h : s.currentState = State.WAIT)
    (hg : READ_INTERVAL ≤ elapsed ct s.lastReadTime) :
    step s ct sv = { s with currentState := State.SENSOR_READ } := by
  unfold step
  rw [h]
  simp [hg]

/-- Shape of a `WAIT` step whose interval guard fails: nothing changes. -/
lemma step_wait_hold (s : Mach) (ct : ℕ) (sv : ℤ)
    (h : s.currentState = State.WAIT)
    (hg : elapsed ct s.lastReadTime < READ_INTERVAL) :
    step s ct sv = s := by
  unfold step
  rw [h]
  simp [Nat.not_le.mpr hg]

/-- Closed form of the canonical run through its first nine sampling cycles:
sample `k` is taken at invocation `2k` and the machine then waits at
invocation `2k + 1`. -/
lemma run_cycle (v : ℕ → ℤ) :
    ∀ k : ℕ, k ≤ 8 →
      run v (2 * k) =
        { currentState := State.SENSOR_READ, lastReadTime := 100 * k - 100
          readings := window v k, graphData := fun _ => 0, readIndex := (k : ℤ)
          averagedValue := 0, previousAveragedValue := -1, renderCount := 0 } ∧
      run v (2 * k + 1) =
        { currentState := State.WAIT, lastReadTime := 100 * k
          readings := window v (k + 1), graphData := fun _ => 0
          readIndex := (k : ℤ) + 1
          averagedValue := 0, previousAveragedValue := -1, renderCount := 0 } := by
  intro k
  induction k with
  | zero =>
      intro _
      refine ⟨rfl, ?_⟩
      show step (run v 0) (50 * 0) (v 0) = _
      rw [show run v 0 = initMach from rfl,
        step_read_wait initMach (50 * 0) (v 0) rfl (by norm_num [initMach])]
      simp [Mach.mk.injEq, initMach, window]
  | succ k ih =>
      intro hk
      obtain ⟨he, ho⟩ := ih (by omega)
      have hE : run v (2 * (k + 1)) =
          { currentState := State.SENSOR_READ, lastReadTime := 100 * (k + 1) - 100
            readings := window v (k + 1), graphData := fun _ => 0
            readIndex := ((k + 1 : ℕ) : ℤ)
            averagedValue := 0, previousAveragedValue := -1, renderCount := 0 } := by
        have h2 : 2 * (k + 1) = (2 * k + 1) + 1 := by ring
        rw [h2]
        show step (run v (2 * k + 1)) (50 * (2 * k + 1)) (v (2 * k + 1)) = _
        rw [ho]
        rw [step_wait_pass _ _ _ rfl
          (by show READ_INTERVAL ≤ elapsed (50 * (2 * k + 1)) (100 * k)
              unfold elapsed READ_INTERVAL
              omega)]
        simp only [Mach.mk.injEq, and_true, true_and]
        refine ⟨by omega, by omega⟩
      refine ⟨hE, ?_⟩
      show step (run v (2 * (k + 1))) (50 * (2 * (k + 1))) (v (2 * (k + 1))) = _
      rw [hE]
      rw [step_read_wait _ _ _ rfl (by show ((k + 1 : ℕ) : ℤ) + 1 < 10; push_cast; omega)]
      simp only [Mach.mk.injEq, and_true, true_and]
      exact ⟨by omega, rfl⟩

/-- Invocation 18 of the canonical run: about to take the tenth sample. -/
lemma run_eighteen (v : ℕ → ℤ) :
    run v 18 =
      { currentState := State.SENSOR_READ, lastReadTime := 800
        readings := window v 9, graphData := fun _ => 0, readIndex := 9
        averagedValue := 0, previousAveragedValue := -1, renderCount := 0 } := by
  have ho := (run_cycle v 8 (by norm_num)).2
  show step (run v 17) (50 * 17) (v 17) = _
  rw [show (17 : ℕ) = 2 * 8 + 1 from rfl, ho]
  rw [step_wait_pass _ _ _ rfl (by unfold elapsed READ_INTERVAL; norm_num)]
  simp [Mach.mk.injEq]

/-- Invocation 19 of the canonical run: the window is full, the state is
`AVERAGE`, nothing has been rendered yet. -/
lemma run_nineteen (v : ℕ → ℤ) :
    run v 19 =
      { currentState := State.AVERAGE, lastReadTime := 900
        readings := window v 10, graphData := fun _ => 0, readIndex := 10
        averagedValue := 0, previousAveragedValue := -1, renderCount := 0 } := by
  show step (run v 18) (50 * 18) (v 18) = _
  rw [run_eighteen]
  rw [step_read_avg _ _ _ rfl (by norm_num)]
  have hw : Function.update (window v 9) (9 : ℤ) (v 18) = window v 10 := rfl
  simp only [Mach.mk.injEq, hw, and_true, true_and]
  norm_num

/-- Claim C3: on the canonical run from startup (the `WAIT` guard passes as
soon as `READ_INTERVAL` elapses), each of the 10 sampling cycles executes
`SENSOR_READ` (the first 9 each followed by `WAIT`), after the 10th the state
is `AVERAGE` with write index 10, and leaving `AVERAGE` resets the write
index to 0. -/
theorem batch_cycle_counts (v : ℕ → ℤ) :
    (∀ k, k < 10 → (run v (2 * k)).currentState = State.SENSOR_READ) ∧
      (∀ k, k < 9 → (run v (2 * k + 1)).currentState = State.WAIT) ∧
      (run v 19).currentState = State.AVERAGE ∧
      (run v 19).readIndex = 10 ∧
      (run v 20).readIndex = 0 ∧
      (run v 20).currentState = State.SENSOR_READ := by
  have h19 : (run v 19).currentState = State.AVERAGE := by rw [run_nineteen]
  have hidx : (run v 19).readIndex = 10 := by rw [run_nineteen]
  have h20 := step_average_resets (run v 19) (50 * 19) (v 19) h19
  refine ⟨?_, ?_, h19, hidx, h20.1, h20.2⟩
  · intro k hk
    rcases Nat.lt_or_ge k 9 with h9 | h9
    · rw [(run_cycle v k (by omega)).1]
    · rw [show k = 9 from by omega, show 2 * 9 = 18 from rfl, run_eighteen]
  · intro k hk
    rw [(run_cycle v k (by omega)).2]

/-- Witness for C3: concrete instances of the quantified parts at the
all-zero sensor stream. -/
theorem batch_cycle_counts_witness :
    (run (fun _ => 0) 19).currentState = State.AVERAGE ∧
      (run (fun _ => 0) 0).currentState = State.SENSOR_READ ∧
      (run (fun _ => 0) 1).currentState = State.WAIT :=
  ⟨(batch_cycle_counts (fun _ => 0)).2.2.1,
    (batch_cycle_counts (fun _ => 0)).1 0 (by norm_num),
    (batch_cycle_counts (fun _ => 0)).2.1 0 (by norm_num)⟩

/-- Shape of an `AVERAGE` step whose new average differs from the previous
one: the graph is pushed, the display rendered, the previous value updated. -/
lemma step_average_render (s : Mach) (ct : ℕ) (sv : ℤ)
    (h : s.currentState = State.AVERAGE)
    (hc : avgOf s.readings ≠ s.previousAveragedValue) :
    step s ct sv =
      { s with
        averagedValue := avgOf s.readings
        graphData := pushGraph s.graphData (avgOf s.readings)
        renderCount := s.renderCount + 1
        previousAveragedValue := avgOf s.readings
        readIndex := 0
        currentState := State.SENSOR_READ } := by
  unfold step
  rw [h]
  simp [hc]

/-- Shape of an `AVERAGE` step whose new average equals the previous one:
graph, display and previous value are untouched. -/
lemma step_average_skip (s : Mach) (ct : ℕ) (sv : ℤ)
    (h : s.currentState = State.AVERAGE)
    (hc : avgOf s.readings = s.previousAveragedValue) :
    step s ct sv =
      { s with
        averagedValue := avgOf s.readings
        readIndex := 0
        currentState := State.SENSOR_READ } := by
  unfold step
  rw [h]
  simp [hc]

/-- Claim C4: in the `AVERAGE` state the renderer is invoked exactly when the
new average differs from the previous one; when they differ the average is
pushed onto the graph history and the previous value updated; on a
suppressed cycle graph history, previous value and render count are
unchanged; and a second `AVERAGE` cycle whose average equals the first one's
never renders, so equal consecutive averages render at most once. -/
theorem average_render_gate (s : Mach) (ct : ℕ) (sv : ℤ)
    (h : s.currentState = State.AVERAGE) :
    ((step s ct sv).renderCount = s.renderCount + 1 ↔
        avgOf s.readings ≠ s.previousAveragedValue) ∧
      (avgOf s.readings ≠ s.previousAveragedValue →
        (step s ct sv).graphData = pushGraph s.graphData (avgOf s.readings) ∧
          (step s ct sv).previousAveragedValue = avgOf s.readings) ∧
      (avgOf s.readings = s.previousAveragedValue →
        (step s ct sv).graphData = s.graphData ∧
          (step s ct sv).previousAveragedValue = s.previousAveragedValue ∧
          (step s ct sv).renderCount = s.renderCount) ∧
      (∀ (s2 : Mach) (ct2 : ℕ) (sv2 : ℤ), s2.currentState = State.AVERAGE →
        avgOf s2.readings = avgOf s.readings →
        s2.previousAveragedValue = (step s ct sv).previousAveragedValue →
        (step s2 ct2 sv2).renderCount = s2.renderCount) := by
  by_cases hc : avgOf s.readings = s.previousAveragedValue
  · have hp : (step s ct sv).previousAveragedValue = s.previousAveragedValue := by
      rw [step_average_skip s ct sv h hc]
    have hr : (step s ct sv).renderCount = s.renderCount := by
      rw [step_average_skip s ct sv h hc]
    refine ⟨by rw [hr]; simp [hc], fun hne => absurd hc hne,
      fun _ => ⟨by rw [step_average_skip s ct sv h hc], hp, hr⟩, ?_⟩
    intro s2 ct2 sv2 h2 havg hprev
    have hc2 : avgOf s2.readings = s2.previousAveragedValue := by
      rw [havg, hprev, hp, ← hc]
    rw [step_average_skip s2 ct2 sv2 h2 hc2]
  · have hp : (step s ct sv).previousAveragedValue = avgOf s.readings := by
      rw [step_average_render s ct sv h hc]
    have hr : (step s ct sv).renderCount = s.renderCount + 1 := by
      rw [step_average_render s ct sv h hc]
    refine ⟨by rw [hr]; simp [hc], fun _ =>
      ⟨by rw [step_average_render s ct sv h hc], hp⟩,
      fun heq => absurd heq hc, ?_⟩
    intro s2 ct2 sv2 h2 havg hprev
    have hc2 : avgOf s2.readings = s2.previousAveragedValue := by
      rw [havg, hprev, hp]
    rw [step_average_skip s2 ct2 sv2 h2 hc2]

/-- Witness for C4 at a concrete `AVERAGE` state: the all-zero window differs
from the initial previous value -1, so the render count increments. -/
theorem average_render_gate_witness :
    (step { initMach with currentState := State.AVERAGE } 0 0).renderCount =
      ({ initMach with currentState := State.AVERAGE } : Mach).renderCount + 1 :=
  (average_render_gate { initMach with currentState := State.AVERAGE } 0 0
    rfl).1.mpr (by decide)

/-- Claim C5: in `WAIT` (under a monotone clock that has not wrapped a full
32-bit period since the last sample) the machine moves to `SENSOR_READ`
exactly when at least `READ_INTERVAL` = 50 ms have elapsed since the last
sample; before that the step changes nothing and the state stays `WAIT`. -/
theorem wait_interval_gate (s : Mach) (ct : ℕ) (sv : ℤ)
    (h : s.currentState = State.WAIT)
    (hlt : s.lastReadTime < 4294967296)
    (hmono : s.lastReadTime ≤ ct)
    (hwrap : ct < s.lastReadTime + 4294967296) :
    ((step s ct sv).currentState = State.SENSOR_READ ↔
        READ_INTERVAL ≤ ct - s.lastReadTime) ∧
      (ct - s.lastReadTime < READ_INTERVAL →
        step s ct sv = s ∧ (step s ct sv).currentState = State.WAIT) := by
  have he : elapsed ct s.lastReadTime = ct - s.lastReadTime := by
    unfold elapsed
    omega
  by_cases hg : READ_INTERVAL ≤ elapsed ct s.lastReadTime
  · rw [step_wait_pass s ct sv h hg]
    rw [he] at hg
    exact ⟨by simp [hg], fun hless => absurd hg (by omega)⟩
  · push_neg at hg
    rw [step_wait_hold s ct sv h hg]
    rw [he] at hg
    refine ⟨?_, fun _ => ⟨rfl, h⟩⟩
    rw [h]
    constructor
    · intro hcon
      cases hcon
    · intro hcon
      exact absurd hcon (by omega)

/-- Witness for C5: from `WAIT` with the last sample at time 0, the step at
time 50 enters `SENSOR_READ`, and the step at time 49 changes nothing. -/
theorem wait_interval_gate_witness :
    (step { initMach with currentState := State.WAIT } 50 0).currentState =
        State.SENSOR_READ ∧
      step { initMach with currentState := State.WAIT } 49 0 =
        { initMach with currentState := State.WAIT } :=
  ⟨(wait_interval_gate { initMach with currentState := State.WAIT } 50 0 rfl
      (by norm_num [initMach]) (by norm_num [initMach])
      (by norm_num [initMach])).1.mpr (by norm_num [initMach, READ_INTERVAL]),
    ((wait_interval_gate { initMach with currentState := State.WAIT } 49 0 rfl
      (by norm_num [initMach]) (by norm_num [initMach])
      (by norm_num [initMach])).2 (by norm_num [initMach, READ_INTERVAL])).1⟩

/-- Claim C7: the rolling averager's noise-floor clamp maps any mean ≤ 30 to
exactly 0 and leaves any mean > 30 unchanged. -/
theorem clampNoise_spec :
    ∀ m : ℤ, (m ≤ 30 → clampNoise m = 0) ∧ (30 < m → clampNoise m = m) := by
  intro m
  constructor
  · intro h
    simp [clampNoise, h]
  · intro h
    simp [clampNoise, show ¬m ≤ 30 from by omega]

/-- Witness for C7 at the spec's scenario mean 25 (clamped to 0) and at 31
(unchanged). -/
theorem clampNoise_spec_witness : clampNoise 25 = 0 ∧ clampNoise 31 = 31 :=
  ⟨(clampNoise_spec 25).1 (by norm_num), (clampNoise_spec 31).2 (by norm_num)⟩

/-- Claim C8: the linear unit mapping is monotone non-decreasing and sends 0
to 0.0 and 4095 to 3.3 volts (exactly, in rational arithmetic). -/
theorem mapVolts_monotone_endpoints :
    (∀ x y : ℚ, x ≤ y → mapVolts x ≤ mapVolts y) ∧
      mapVolts 0 = 0 ∧ mapVolts 4095 = 33 / 10 := by
  refine ⟨?_, by norm_num [mapVolts], by norm_num [mapVolts]⟩
  intro x y hxy
  simp only [mapVolts, sub_zero, zero_add]
  have h1 : (0 : ℚ) < 4095 := by norm_num
  exact (div_le_div_iff_of_pos_right h1).mpr
    (mul_le_mul_of_nonneg_left hxy (by norm_num))

/-- Witness for C8: monotonicity instantiated at 0 ≤ 1, plus the upper
endpoint. -/
theorem mapVolts_monotone_endpoints_witness :
    mapVolts 0 ≤ mapVolts 1 ∧ mapVolts 4095 = 33 / 10 :=
  ⟨mapVolts_monotone_endpoints.1 0 1 (by norm_num),
    mapVolts_monotone_endpoints.2.2⟩

/-- Inductive invariant on reachable states: the write index stays in
[0, 10], and outside the `AVERAGE` state it is strictly below 10. -/
lemma reachable_invariant :
    ∀ s : Mach, Reachable s →
      0 ≤ s.readIndex ∧ s.readIndex ≤ 10 ∧
        (s.currentState ≠ State.AVERAGE → s.readIndex < 10) := by
  intro s hs
  induction hs with
  | init => exact ⟨by norm_num [initMach], by norm_num [initMach],
      fun _ => by norm_num [initMach]⟩
  | next s ct sv hs ih =>
      obtain ⟨h0, h10, hlt⟩ := ih
      cases hstate : s.currentState with
      | SENSOR_READ =>
          have hi : s.readIndex < 10 := hlt (by rw [hstate]; simp)
          by_cases hfull : 10 ≤ s.readIndex + 1
          · rw [step_read_avg s ct sv hstate hfull]
            refine ⟨?_, ?_, fun hcon => absurd rfl hcon⟩
            · show 0 ≤ s.readIndex + 1
              omega
            · show s.readIndex + 1 ≤ 10
              omega
          · rw [step_read_wait s ct sv hstate (by omega)]
            refine ⟨?_, ?_, fun _ => ?_⟩
            · show 0 ≤ s.readIndex + 1
              omega
            · show s.readIndex + 1 ≤ 10
              omega
            · show s.readIndex + 1 < 10
              omega
      | WAIT =>
          have hi : s.readIndex < 10 := hlt (by rw [hstate]; simp)
          by_cases hg : READ_INTERVAL ≤ elapsed ct s.lastReadTime
          · rw [step_wait_pass s ct sv hstate hg]
            exact ⟨h0, h10, fun _ => hi⟩
          · push_neg at hg
            rw [step_wait_hold s ct sv hstate hg]
            exact ⟨h0, h10, hlt⟩
      | AVERAGE =>
          have h2 := step_average_resets s ct sv hstate
          rw [h2.1]
          exact ⟨by norm_num, by norm_num, fun _ => by norm_num⟩

/-- Claim C9: every write into `readings` is in bounds — in every reachable
state `0 ≤ readIndex ≤ 10`, and when the `SENSOR_READ` state executes its
store, `readIndex < 10 = NUM_READINGS`. -/
theorem readIndex_bounds (s : Mach) (hs : Reachable s) :
    (0 ≤ s.readIndex ∧ s.readIndex ≤ 10) ∧
      (s.currentState = State.SENSOR_READ → s.readIndex < 10) := by
  obtain ⟨h0, h10, hlt⟩ := reachable_invariant s hs
  exact ⟨⟨h0, h10⟩, fun h => hlt (by rw [h]; simp)⟩

/-- Witness for C9 at the startup state. -/
theorem readIndex_bounds_witness :
    (0 ≤ initMach.readIndex ∧ initMach.readIndex ≤ 10) ∧
      (initMach.currentState = State.SENSOR_READ → initMach.readIndex < 10) :=
  readIndex_bounds initMach Reachable.init

/-- Claim C10: on the canonical run with any non-negative sensor stream, the
first completed `AVERAGE` cycle renders: the previous averaged value is
still its initial -1 while the computed average is ≥ 0, so the
change-detection guard passes, the display is rendered (render count goes
from 0 to 1), the average is pushed onto the graph history, and the
previous averaged value is updated. -/
theorem first_average_renders (v : ℕ → ℤ) (hv : ∀ n, 0 ≤ v n) :
    (run v 19).currentState = State.AVERAGE ∧
      (run v 19).previousAveragedValue = -1 ∧
      0 ≤ avgOf ((run v 19).readings) ∧
      (run v 20).renderCount = 1 ∧
      (run v 20).graphData =
        pushGraph (run v 19).graphData (avgOf ((run v 19).readings)) ∧
      (run v 20).previousAveragedValue = avgOf ((run v 19).readings) := by
  have h19 := run_nineteen v
  have hsum : sumReadings (window v 10) =
      0 + v 0 + v 2 + v 4 + v 6 + v 8 + v 10 + v 12 + v 14 + v 16 + v 18 := rfl
  have hS0 : 0 ≤ sumReadings (window v 10) := by
    rw [hsum]
    have a0 := hv 0
    have a2 := hv 2
    have a4 := hv 4
    have a6 := hv 6
    have a8 := hv 8
    have a10 := hv 10
    have a12 := hv 12
    have a14 := hv 14
    have a16 := hv 16
    have a18 := hv 18
    omega
  have havg0 : 0 ≤ avgOf (window v 10) := by
    show 0 ≤ Int.tdiv (sumReadings (window v 10)) NUM_READINGS
    exact Int.tdiv_nonneg hS0 (by norm_num [NUM_READINGS])
  have hne : avgOf ((run v 19).readings) ≠ (run v 19).previousAveragedValue := by
    rw [h19]
    show avgOf (window v 10) ≠ -1
    omega
  have hr : run v 20 =
      { run v 19 with
        averagedValue := avgOf ((run v 19).readings)
        graphData := pushGraph (run v 19).graphData (avgOf ((run v 19).readings))
        renderCount := (run v 19).renderCount + 1
        previousAveragedValue := avgOf ((run v 19).readings)
        readIndex := 0
        currentState := State.SENSOR_READ } := by
    show step (run v 19) (50 * 19) (v 19) = _
    exact step_average_render (run v 19) (50 * 19) (v 19) (by rw [h19]) hne
  refine ⟨by rw [h19], by rw [h19], by rw [h19]; exact havg0, ?_, ?_, ?_⟩
  · rw [hr]
    show (run v 19).renderCount + 1 = 1
    rw [h19]
  · rw [hr]
  · rw [hr]

/-- Witness for C10 at the all-zero sensor stream. -/
theorem first_average_renders_witness :
    (run (fun _ => 0) 19).currentState = State.AVERAGE ∧
      (run (fun _ => 0) 20).renderCount = 1 :=
  ⟨(first_average_renders (fun _ => 0) (fun _ => le_refl 0)).1,
    (first_average_renders (fun _ => 0) (fun _ => le_refl 0)).2.2.2.1⟩

/-- The scale-bounds loop only ever lowers `minValue` and raises
`maxValue`. -/
lemma boundsFold_le (g : ℤ → ℤ) :
    ∀ (l : List ℕ) (mv : ℤ × ℤ),
      (l.foldl (boundsStep g) mv).1 ≤ mv.1 ∧
        mv.2 ≤ (l.foldl (boundsStep g) mv).2 := by
  intro l
  induction l with
  | nil => exact fun mv => ⟨le_refl _, le_refl _⟩
  | cons a t ih =>
      intro mv
      simp only [List.foldl_cons]
      refine ⟨le_trans (ih (boundsStep g mv a)).1 ?_,
        le_trans ?_ (ih (boundsStep g mv a)).2⟩
      · show (boundsStep g mv a).1 ≤ mv.1
        unfold boundsStep
        dsimp only
        split <;> omega
      · show mv.2 ≤ (boundsStep g mv a).2
        unfold boundsStep
        dsimp only
        split <;> omega

/-- If every scanned entry is ≤ 4095 then the loop keeps `maxValue` at its
initial 4095. -/
lemma boundsFold_max_fixed (g : ℤ → ℤ) :
    ∀ (l : List ℕ) (mv : ℤ × ℤ),
      mv.2 = 4095 → (∀ i ∈ l, g (i : ℤ) ≤ 4095) →
        (l.foldl (boundsStep g) mv).2 = 4095 := by
  intro l
  induction l with
  | nil => exact fun mv h _ => h
  | cons a t ih =>
      intro mv h hall
      simp only [List.foldl_cons]
      refine ih (boundsStep g mv a) ?_ fun i hi => hall i (List.mem_cons_of_mem _ hi)
      show (if g (a : ℤ) > mv.2 then g (a : ℤ) else mv.2) = 4095
      have ha := hall a (List.mem_cons_self a t)
      rw [if_neg (by omega)]
      exact h

/-- Claim C6 fails on the code: with the constant history 2000, the history's
minimum (2000) is drawn at offset 26, not at the bottom (0) of the plot area
— `drawGraph` never scales the history's own min/max to the full extent
because its bounds start at 30 and 4095. -/
theorem drawGraph_full_extent_cex :
    ¬(∀ g : ℤ → ℤ, (∀ i : ℤ, 0 ≤ i → i < 10 → 0 ≤ g i ∧ g i ≤ 4095) →
        plotY g (histMin g) = 0 ∧ plotY g (histMax g) = GRAPH_HEIGHT) := by
  intro hcl
  have h := hcl (fun _ => 2000) (by intro i h1 h2; norm_num)
  have h26 : plotY (fun _ => 2000) (histMin fun _ => 2000) = 26 := by decide
  rw [h26] at h
  exact absurd h.1 (by decide)

/-- Claim C6 amended: `drawGraph` maps its own scale bounds — `minValue =
min(30, history min)` and `maxValue = max(4095, history max)`, not the
history's min and max — to the full vertical extent `[0, GRAPH_HEIGHT]`;
for histories with values in [0, 4095] the upper bound is always exactly
4095. -/
theorem drawGraph_bounds_full_extent (g : ℤ → ℤ)
    (h : ∀ i : ℤ, 0 ≤ i → i < 10 → 0 ≤ g i ∧ g i ≤ 4095) :
    plotY g (graphBounds g).1 = 0 ∧
      plotY g (graphBounds g).2 = GRAPH_HEIGHT ∧
      (graphBounds g).1 ≤ 30 ∧
      (graphBounds g).2 = 4095 := by
  have hmono := boundsFold_le g (List.range 10) (30, 4095)
  have hmin : (graphBounds g).1 ≤ 30 := hmono.1
  have hmax : 4095 ≤ (graphBounds g).2 := hmono.2
  have hne : (graphBounds g).2 - (graphBounds g).1 ≠ 0 := by omega
  refine ⟨?_, ?_, hmin, ?_⟩
  · unfold plotY arduinoMap
    rw [sub_self, zero_mul, Int.zero_tdiv, add_zero]
  · unfold plotY arduinoMap GRAPH_HEIGHT
    rw [show (55 : ℤ) - 0 = 55 from rfl, Int.mul_tdiv_cancel_left 55 hne,
      add_zero]
  · refine boundsFold_max_fixed g (List.range 10) (30, 4095) rfl fun i hi => ?_
    rw [List.mem_range] at hi
    exact (h (i : ℤ) (Int.natCast_nonneg i) (by exact_mod_cast hi)).2

/-- Witness for the amended C6 at the constant history 2000: the code's own
bounds land on the full extent even though the history's values do not. -/
theorem drawGraph_bounds_full_extent_witness :
    plotY (fun _ => 2000) (graphBounds fun _ => 2000).1 = 0 ∧
      plotY (fun _ => 2000) (graphBounds fun _ => 2000).2 = GRAPH_HEIGHT ∧
      (graphBounds fun _ => 2000).1 ≤ 30 ∧
      (graphBounds fun _ => 2000).2 = 4095 :=
  drawGraph_bounds_full_extent (fun _ => 2000) (by intro i h1 h2; norm_num)

end KY035
